import Mathlib

/-!
# Balance-consistency engine of the finzen backend, shallowly embedded

This file embeds the balance mutation engine of the finzen web-app server:
the route handlers that mutate `Account.balance` as a side effect of
transaction create/delete (`src/routes/transactions.ts`), allocation
mark-paid (`src/routes/allocations.ts`), borrowing create/pay/update/delete
(`src/routes/borrowings.ts`), together with the account and allocation CRUD
routes (`src/routes/accounts.ts`, `src/routes/allocations.ts`) and the
mongoose schema-level behaviour that matters for those routes:

* `Account.balance` carries a `min: [0]` validator, so a `save()` that would
  commit a negative balance throws a `ValidationError`, is caught by the
  route's `catch`, and the handler answers 500 without committing that write
  (writes that already happened earlier in the handler stay committed);
* `Borrowing` has a `pre('save')` hook that recomputes `remainingAmount`
  and `status` from `totalAmount` and `paidAmount` on every save.

Monetary amounts are JavaScript numbers (IEEE-754 binary64) in the source.
The main development models them as exact integers counted in the minor
currency unit (`Int`, "cents"; the express-validator bound `0.01` of a
major unit is one minor unit): the guard, sign, invariant and frame
properties below only compare values and apply and invert deltas, so they
are insensitive to binary64 rounding.  The one property that is sensitive
to rounding — exact restoration of a balance across a transaction
create/delete cycle — is settled against `txnCreateF`/`txnDeleteF` below:
the same two handlers with the binary64 rounding of each JavaScript
`+=`/`-=` kept explicit (`flDyadic`).  Persistent collections are modelled
as association lists from a `Nat` id to the record, where lookup returns
the first match; fresh ids come from a `nextId` counter in the state.
Fields that never influence balances or the claims (names, colours, dates,
notes, currency, user ids — the model works inside one authenticated
user's data, since every route filters by `userId`) are omitted.
-/

/-- Transaction / category type: `'income' | 'expense'`. -/
inductive TxnType
  | income
  | expense
deriving DecidableEq, Repr

/-- Borrowing type: `'borrow' | 'lend'` (`src/models/Borrowing.ts`). -/
inductive BorrowType
  | borrow
  | lend
deriving DecidableEq, Repr

/-- Borrowing status: `'active' | 'completed'`. -/
inductive BStatus
  | active
  | completed
deriving DecidableEq, Repr

/-- Allocation type: `'expense' | 'income' | 'savings'`
(`src/models/Allocation.ts`). -/
inductive AllocType
  | expense
  | income
  | savings
deriving DecidableEq, Repr

/-- BorrowingTransaction type: `'payment' | 'return'`
(`src/models/BorrowingTransaction.ts`). -/
inductive BTxnType
  | payment
  | ret
deriving DecidableEq, Repr

/-- A persisted Transaction (`src/models/Transaction.ts`); date and note
omitted. -/
structure Txn where
  accountId : Nat
  categoryId : Nat
  type : TxnType
  amount : Int
deriving DecidableEq, Repr

/-- An embedded MonthlyPayment subdocument (`src/models/Allocation.ts`);
`paidDate` omitted (time is not modelled). -/
structure MonthlyPayment where
  month : String
  accountId : Nat
  paid : Bool
deriving DecidableEq, Repr

/-- A persisted Allocation (`src/models/Allocation.ts`); name omitted. -/
structure Allocation where
  amount : Int
  type : AllocType
  active : Bool
  monthlyPayments : List MonthlyPayment
deriving DecidableEq, Repr

/-- A persisted Borrowing (`src/models/Borrowing.ts`); friend fields
omitted. -/
structure Borrowing where
  type : BorrowType
  totalAmount : Int
  paidAmount : Int
  remainingAmount : Int
  status : BStatus
  initialAccountId : Option Nat
deriving DecidableEq, Repr

/-- A persisted BorrowingTransaction
(`src/models/BorrowingTransaction.ts`); date and note omitted. -/
structure BTxn where
  borrowingId : Nat
  accountId : Nat
  amount : Int
  type : BTxnType
deriving DecidableEq, Repr

/-- The persistent store for one user: each collection is an association
list from document id to document (an Account is just its balance, the only
field the engine reads or writes; a Category is just its type, the only
field the engine consults).  `nextId` supplies fresh document ids. -/
structure St where
  accounts : List (Nat × Int)
  categories : List (Nat × TxnType)
  transactions : List (Nat × Txn)
  allocations : List (Nat × Allocation)
  borrowings : List (Nat × Borrowing)
  btxns : List (Nat × BTxn)
  nextId : Nat
deriving DecidableEq, Repr

/-- Response outcome classes, mirroring the handlers' terminal responses:
404, express-validator 400, the two kinds of domain 400, and the 500 the
`catch` block produces when a mongoose `save()` validation throws. -/
inductive ErrKind
  | notFound
  | validation
  | insufficientBalance
  | invalidState
  | serverError
deriving DecidableEq, Repr

/-- Result of one handler call. -/
inductive Res
  | ok
  | err (k : ErrKind)
deriving DecidableEq, Repr

/-- `Model.findOne({_id: i, userId})`: first entry with the given id. -/
def lookupId {α : Type} (l : List (Nat × α)) (i : Nat) : Option α :=
  (l.find? (fun p => p.1 == i)).map (·.2)

/-- Committing a document write back to the store: every entry with this id
is replaced by the new value. -/
def setId {α : Type} (l : List (Nat × α)) (i : Nat) (v : α) : List (Nat × α) :=
  l.map (fun p => if p.1 == i then (i, v) else p)

/-- `doc.deleteOne()` / `Model.deleteMany({_id: i})`: drop the id. -/
def removeId {α : Type} (l : List (Nat × α)) (i : Nat) : List (Nat × α) :=
  l.filter (fun p => p.1 != i)

/-- The express-validator guard `isFloat({ min: 0.01 })` used for every
monetary amount field: at least one minor currency unit. -/
def validAmount (a : Int) : Bool :=
  1 ≤ a

/-- The route guard `month.matches(/^\d{4}-\d{2}$/)`. -/
def monthOk (m : String) : Bool :=
  match m.toList with
  | [a, b, c, d, e, f, g] =>
      a.isDigit && b.isDigit && c.isDigit && d.isDigit && e == '-' &&
      f.isDigit && g.isDigit
  | _ => false

/-! ## Route handlers

Each handler is a function `St → St × Res`: the committed store after the
call together with the response class.  A mongoose `save()` of an Account
whose balance would be negative throws (schema validator `min: [0]` in
`src/models/Account.ts`), the route's `catch` answers 500, and everything
already saved earlier in the handler stays committed — the branches below
reproduce that order of commits exactly. -/

/-- `POST /api/transactions` (`src/routes/transactions.ts`).  Order of the
source: validate, find account, find category, check category type, save
the Transaction, add the delta in memory, reject and compensating-delete
the Transaction if the balance went negative, otherwise save the
account. -/
def txnCreate (s : St) (accountId categoryId : Nat) (ty : TxnType)
    (amount : Int) : St × Res :=
  if ¬ validAmount amount then (s, .err .validation)
  else
    match lookupId s.accounts accountId with
    | none => (s, .err .notFound)
    | some bal =>
      match lookupId s.categories categoryId with
      | none => (s, .err .notFound)
      | some cty =>
        if cty ≠ ty then (s, .err .validation)
        else
          let tid := s.nextId
          let s1 : St := { s with
            transactions :=
              s.transactions ++ [(tid, ⟨accountId, categoryId, ty, amount⟩)],
            nextId := s.nextId + 1 }
          let newBal :=
            bal + (match ty with | .income => amount | .expense => -amount)
          if newBal < 0 then
            ({ s1 with transactions := removeId s1.transactions tid },
             .err .insufficientBalance)
          else
            ({ s1 with accounts := setId s1.accounts accountId newBal }, .ok)

/-- `DELETE /api/transactions/:id` (`src/routes/transactions.ts`).  Finds
the transaction, reverses its delta on the populated account and saves the
account, then deletes the transaction.  If the populated account is gone
the handler throws on `account.balance` (500, nothing committed); if the
reversed balance is negative the account save throws (500, nothing
committed, transaction kept). -/
def txnDelete (s : St) (tid : Nat) : St × Res :=
  match lookupId s.transactions tid with
  | none => (s, .err .notFound)
  | some t =>
    match lookupId s.accounts t.accountId with
    | none => (s, .err .serverError)
    | some bal =>
      let newBal :=
        bal + (match t.type with | .income => -t.amount | .expense => t.amount)
      if newBal < 0 then (s, .err .serverError)
      else
        ({ s with
            accounts := setId s.accounts t.accountId newBal,
            transactions := removeId s.transactions tid }, .ok)

/-! ### The same two transaction handlers with binary64 arithmetic

JavaScript numbers are IEEE-754 binary64, so `account.balance += x` stores
the *rounding* of the exact sum.  For the round-trip claim that rounding is
the whole point, so the two transaction handlers are repeated below with it
kept explicit.  Every binary64 value of magnitude ≥ 0.01 is a dyadic
rational with an integral numerator over the scale 2^59; the handlers work
on those numerators, and `flDyadic` is binary64 round-to-nearest-even on
them (the rounding is independent of the fixed scale chosen). -/

/-- `⌊log₂ n⌋` for `0 < n < 2^64`, by bounded search; agrees with
`Nat.log2` there but reduces in the kernel. -/
def log2w (n : Nat) : Nat :=
  ((List.range 64).filter (fun k => 2 ^ k ≤ n)).length - 1

/-- Round `n` to the nearest multiple of `2^k`, ties to the even multiple:
the final rounding step of IEEE-754 round-to-nearest-even. -/
def roundMulPow2 (n : Nat) (k : Nat) : Nat :=
  let p := 2 ^ k
  let q := n / p
  let r := n % p
  if 2 * r < p then q * p
  else if p < 2 * r then (q + 1) * p
  else if q % 2 = 0 then q * p else (q + 1) * p

/-- IEEE-754 binary64 rounding of a dyadic rational given as its integer
numerator over a fixed power-of-two scale: the numerator is cut to 53
significant bits, ties to even.  Scale-independent, and faithful for
normal-range, non-overflowing magnitudes — which covers every value in the
statements below.  Every JavaScript `+=`/`-=` in the routes stores exactly
this rounding of the exact sum. -/
def flDyadic (n : Int) : Int :=
  let a := n.natAbs
  if a < 2 ^ 53 then n
  else
    let r : Int := (roundMulPow2 a (log2w a - 52) : Nat)
    if n < 0 then -r else r

/-- The binary64 value nearest 0.01 — the bound `isFloat({ min: 0.01 })`
actually compares against — as a numerator over the scale 2^59. -/
def oneCentB64 : Int := 5764607523034235

/-- The guard `isFloat({ min: 0.01 })` over binary64 values at scale
2^59. -/
def validAmountF (a : Int) : Bool :=
  oneCentB64 ≤ a

/-- `POST /api/transactions` (`src/routes/transactions.ts`) once more,
now with the JavaScript number semantics kept: monetary fields are
binary64 values as numerators over 2^59 and
`account.balance += amountChange` rounds the exact sum to binary64.
Control flow identical to `txnCreate`. -/
def txnCreateF (s : St) (accountId categoryId : Nat) (ty : TxnType)
    (amount : Int) : St × Res :=
  if ¬ validAmountF amount then (s, .err .validation)
  else
    match lookupId s.accounts accountId with
    | none => (s, .err .notFound)
    | some bal =>
      match lookupId s.categories categoryId with
      | none => (s, .err .notFound)
      | some cty =>
        if cty ≠ ty then (s, .err .validation)
        else
          let tid := s.nextId
          let s1 : St := { s with
            transactions :=
              s.transactions ++ [(tid, ⟨accountId, categoryId, ty, amount⟩)],
            nextId := s.nextId + 1 }
          let newBal := flDyadic
            (bal + (match ty with | .income => amount | .expense => -amount))
          if newBal < 0 then
            ({ s1 with transactions := removeId s1.transactions tid },
             .err .insufficientBalance)
          else
            ({ s1 with accounts := setId s1.accounts accountId newBal }, .ok)

/-- `DELETE /api/transactions/:id` (`src/routes/transactions.ts`) with
binary64 arithmetic, mirroring `txnDelete`. -/
def txnDeleteF (s : St) (tid : Nat) : St × Res :=
  match lookupId s.transactions tid with
  | none => (s, .err .notFound)
  | some t =>
    match lookupId s.accounts t.accountId with
    | none => (s, .err .serverError)
    | some bal =>
      let newBal := flDyadic (bal +
        (match t.type with | .income => -t.amount | .expense => t.amount))
      if newBal < 0 then (s, .err .serverError)
      else
        ({ s with
            accounts := setId s.accounts t.accountId newBal,
            transactions := removeId s.transactions tid }, .ok)

/-- The JavaScript `findIndex(p => p.month === month)` of the mark-paid
handler, with `-1` rendered as `none`. -/
def findMonthIdx (l : List MonthlyPayment) (m : String) : Option Nat :=
  match l with
  | [] => none
  | p :: rest =>
      if p.month == m then some 0 else (findMonthIdx rest m).map (· + 1)

/-- `POST /api/allocations/:id/mark-paid` (`src/routes/allocations.ts`).
Order of the source: validate month, find allocation, find account, reject
non-income types on insufficient balance, upsert the MonthlyPayment (same
index if the month exists, push otherwise) and save the allocation, apply
the delta and save the account, find the first category of the matching
type (creating a default one when none exists), save the synthetic
Transaction. -/
def markPaid (s : St) (allocId accountId : Nat) (month : String) : St × Res :=
  if ¬ monthOk month then (s, .err .validation)
  else
    match lookupId s.allocations allocId with
    | none => (s, .err .notFound)
    | some alloc =>
      match lookupId s.accounts accountId with
      | none => (s, .err .notFound)
      | some bal =>
        if alloc.type ≠ .income ∧ bal < alloc.amount then
          (s, .err .insufficientBalance)
        else
          let pay : MonthlyPayment := ⟨month, accountId, true⟩
          let newPays :=
            match findMonthIdx alloc.monthlyPayments month with
            | some i => alloc.monthlyPayments.set i pay
            | none => alloc.monthlyPayments ++ [pay]
          let s1 : St := { s with
            allocations := setId s.allocations allocId
              { alloc with monthlyPayments := newPays } }
          let newBal := bal +
            (if alloc.type = .income then alloc.amount else -alloc.amount)
          if newBal < 0 then (s1, .err .serverError)
          else
            let s2 : St :=
              { s1 with accounts := setId s1.accounts accountId newBal }
            let tty := if alloc.type = .income then TxnType.income
                       else TxnType.expense
            let cs :=
              match s2.categories.find? (fun p => p.2 == tty) with
              | some p => (p.1, s2)
              | none => (s2.nextId,
                  { s2 with categories := s2.categories ++ [(s2.nextId, tty)],
                            nextId := s2.nextId + 1 })
            let s3 := cs.2
            ({ s3 with
                transactions := s3.transactions ++
                  [(s3.nextId, ⟨accountId, cs.1, tty, alloc.amount⟩)],
                nextId := s3.nextId + 1 }, .ok)

/-- The `pre('save')` hook of `src/models/Borrowing.ts`: recompute
`remainingAmount` from `totalAmount - paidAmount`, clamp at 0, and derive
`status`.  It runs on every `borrowing.save()`. -/
def borrowingSaveHook (b : Borrowing) : Borrowing :=
  let r := b.totalAmount - b.paidAmount
  if r ≤ 0 then { b with remainingAmount := 0, status := .completed }
  else { b with remainingAmount := r, status := .active }

/-- `POST /api/borrowings` (`src/routes/borrowings.ts`).  When an initial
account is given: 404 if it is absent, insufficient-balance for `lend`
without cover, then the account is saved with the delta
(+total for `borrow`, −total for `lend`) before the Borrowing is saved
with `paidAmount = 0`. -/
def borrowCreate (s : St) (ty : BorrowType) (totalAmount : Int)
    (initialAccountId : Option Nat) : St × Res :=
  if ¬ validAmount totalAmount then (s, .err .validation)
  else
    match initialAccountId with
    | none =>
        ({ s with
            borrowings := s.borrowings ++
              [(s.nextId,
                borrowingSaveHook ⟨ty, totalAmount, 0, totalAmount, .active, none⟩)],
            nextId := s.nextId + 1 }, .ok)
    | some aid =>
      match lookupId s.accounts aid with
      | none => (s, .err .notFound)
      | some bal =>
        if ty = .lend ∧ bal < totalAmount then (s, .err .insufficientBalance)
        else
          let newBal := bal +
            (match ty with | .borrow => totalAmount | .lend => -totalAmount)
          if newBal < 0 then (s, .err .serverError)
          else
            ({ s with
                accounts := setId s.accounts aid newBal,
                borrowings := s.borrowings ++
                  [(s.nextId,
                    borrowingSaveHook
                      ⟨ty, totalAmount, 0, totalAmount, .active, some aid⟩)],
                nextId := s.nextId + 1 }, .ok)

/-- `POST /api/borrowings/:id/pay` (`src/routes/borrowings.ts`).  Order of
the source: validate, find borrowing, reject when already completed, find
account, reject `borrow` payments without cover, reject when the new paid
amount would exceed the total, save the account with the delta (−amount
for `borrow`, +amount for `lend`), save the borrowing with the new paid
amount (the pre-save hook recomputes `remainingAmount`/`status`, making
the handler's own recomputation of those two fields redundant), save one
BorrowingTransaction. -/
def borrowPay (s : St) (bid : Nat) (amount : Int) (accountId : Nat) :
    St × Res :=
  if ¬ validAmount amount then (s, .err .validation)
  else
    match lookupId s.borrowings bid with
    | none => (s, .err .notFound)
    | some b =>
      if b.status = .completed then (s, .err .invalidState)
      else
        match lookupId s.accounts accountId with
        | none => (s, .err .notFound)
        | some bal =>
          if b.type = .borrow ∧ bal < amount then
            (s, .err .insufficientBalance)
          else
            let newPaid := b.paidAmount + amount
            if newPaid > b.totalAmount then (s, .err .invalidState)
            else
              let newBal := bal +
                (match b.type with | .borrow => -amount | .lend => amount)
              if newBal < 0 then (s, .err .serverError)
              else
                let tty := match b.type with
                  | .borrow => BTxnType.payment
                  | .lend => BTxnType.ret
                let b1 := borrowingSaveHook { b with
                  paidAmount := newPaid,
                  remainingAmount := b.totalAmount - newPaid }
                ({ s with
                    accounts := setId s.accounts accountId newBal,
                    borrowings := setId s.borrowings bid b1,
                    btxns := s.btxns ++
                      [(s.nextId, ⟨bid, accountId, amount, tty⟩)],
                    nextId := s.nextId + 1 }, .ok)

/-- `PUT /api/borrowings/:id` (`src/routes/borrowings.ts`).  Friend fields
are not modelled; when a new `totalAmount` is supplied the handler stores
it and recomputes `remainingAmount`/`status`, and the pre-save hook
recomputes them again from the stored fields either way. -/
def borrowUpdate (s : St) (bid : Nat) (newTotal : Option Int) : St × Res :=
  if newTotal.isSome ∧ ¬ validAmount (newTotal.getD 0) then
    (s, .err .validation)
  else
    match lookupId s.borrowings bid with
    | none => (s, .err .notFound)
    | some b =>
      let b1 := match newTotal with
        | some t => borrowingSaveHook { b with totalAmount := t }
        | none => borrowingSaveHook b
      ({ s with borrowings := setId s.borrowings bid b1 }, .ok)

/-- `DELETE /api/borrowings/:id` (`src/routes/borrowings.ts`).  Order of
the source: find borrowing, `deleteMany` its BorrowingTransactions, and if
it has an initial account that still exists, reverse the creation delta
(−total for `borrow`, +total for `lend`) and save the account — a save
that would go negative throws (500) with the ledger already purged and the
borrowing kept — finally delete the borrowing. -/
def borrowDelete (s : St) (bid : Nat) : St × Res :=
  match lookupId s.borrowings bid with
  | none => (s, .err .notFound)
  | some b =>
    let s1 : St :=
      { s with btxns := s.btxns.filter (fun p => p.2.borrowingId != bid) }
    match b.initialAccountId with
    | none =>
        ({ s1 with borrowings := removeId s1.borrowings bid }, .ok)
    | some aid =>
      match lookupId s1.accounts aid with
      | none =>
          ({ s1 with borrowings := removeId s1.borrowings bid }, .ok)
      | some bal =>
        let newBal := bal + (match b.type with
          | .borrow => -b.totalAmount
          | .lend => b.totalAmount)
        if newBal < 0 then (s1, .err .serverError)
        else
          ({ s1 with
              accounts := setId s1.accounts aid newBal,
              borrowings := removeId s1.borrowings bid }, .ok)

/-- `POST /api/accounts` (`src/routes/accounts.ts`).  The validator
requires `balance ≥ 0`; the new account is saved with a fresh id. -/
def accountCreate (s : St) (balance : Int) : St × Res :=
  if balance < 0 then (s, .err .validation)
  else
    ({ s with accounts := s.accounts ++ [(s.nextId, balance)],
              nextId := s.nextId + 1 }, .ok)

/-- `PUT /api/accounts/:id` (`src/routes/accounts.ts`).  The optional
`balance` field, validated `≥ 0`, is written verbatim onto the account
(`if (req.body.balance !== undefined) account.balance = req.body.balance`);
the non-balance fields the route also updates are not modelled.  The final
`account.save()` re-runs the schema validator. -/
def accountUpdate (s : St) (aid : Nat) (newBalance : Option Int) : St × Res :=
  if newBalance.isSome ∧ newBalance.getD 0 < 0 then (s, .err .validation)
  else
    match lookupId s.accounts aid with
    | none => (s, .err .notFound)
    | some bal =>
      let b2 := newBalance.getD bal
      if b2 < 0 then (s, .err .serverError)
      else ({ s with accounts := setId s.accounts aid b2 }, .ok)

/-- `POST /api/allocations` (`src/routes/allocations.ts`): a new
allocation starts with an empty `monthlyPayments` list. -/
def allocCreate (s : St) (amount : Int) (ty : AllocType) (active : Bool) :
    St × Res :=
  if ¬ validAmount amount then (s, .err .validation)
  else
    ({ s with
        allocations := s.allocations ++ [(s.nextId, ⟨amount, ty, active, []⟩)],
        nextId := s.nextId + 1 }, .ok)

/-- `PUT /api/allocations/:id` (`src/routes/allocations.ts`): optional
amount/type/active updates; `monthlyPayments` is untouched. -/
def allocUpdate (s : St) (aid : Nat) (amount : Option Int)
    (ty : Option AllocType) (active : Option Bool) : St × Res :=
  if amount.isSome ∧ ¬ validAmount (amount.getD 0) then
    (s, .err .validation)
  else
    match lookupId s.allocations aid with
    | none => (s, .err .notFound)
    | some alloc =>
      let alloc1 : Allocation :=
        { alloc with
            amount := amount.getD alloc.amount,
            type := ty.getD alloc.type,
            active := active.getD alloc.active }
      ({ s with allocations := setId s.allocations aid alloc1 }, .ok)

/-- `DELETE /api/allocations/:id` (`src/routes/allocations.ts`): only
`allocation.deleteOne()` — no other collection is touched. -/
def allocDelete (s : St) (aid : Nat) : St × Res :=
  match lookupId s.allocations aid with
  | none => (s, .err .notFound)
  | some _ =>
      ({ s with allocations := removeId s.allocations aid }, .ok)

/-! ## Operations and sequences -/

/-- One inbound request against the modelled routes. -/
inductive Op
  | txnCreate (accountId categoryId : Nat) (ty : TxnType) (amount : Int)
  | txnDelete (tid : Nat)
  | markPaid (allocId accountId : Nat) (month : String)
  | borrowCreate (ty : BorrowType) (totalAmount : Int)
      (initialAccountId : Option Nat)
  | borrowPay (bid : Nat) (amount : Int) (accountId : Nat)
  | borrowUpdate (bid : Nat) (newTotal : Option Int)
  | borrowDelete (bid : Nat)
  | accountCreate (balance : Int)
  | accountUpdate (aid : Nat) (newBalance : Option Int)
  | allocCreate (amount : Int) (ty : AllocType) (active : Bool)
  | allocUpdate (aid : Nat) (amount : Option Int) (ty : Option AllocType)
      (active : Option Bool)
  | allocDelete (aid : Nat)
deriving DecidableEq, Repr

/-- Dispatch one request to its handler. -/
def step (s : St) : Op → St × Res
  | .txnCreate a c ty amt => txnCreate s a c ty amt
  | .txnDelete tid => txnDelete s tid
  | .markPaid al ac m => markPaid s al ac m
  | .borrowCreate ty t acc => borrowCreate s ty t acc
  | .borrowPay bid amt acc => borrowPay s bid amt acc
  | .borrowUpdate bid t => borrowUpdate s bid t
  | .borrowDelete bid => borrowDelete s bid
  | .accountCreate b => accountCreate s b
  | .accountUpdate aid b => accountUpdate s aid b
  | .allocCreate amt ty ac => allocCreate s amt ty ac
  | .allocUpdate aid amt ty ac => allocUpdate s aid amt ty ac
  | .allocDelete aid => allocDelete s aid

/-- The committed store after a sequence of requests (each request commits
whatever its handler committed, whether it answered 2xx or 4xx/5xx). -/
def run (s : St) (ops : List Op) : St :=
  ops.foldl (fun s op => (step s op).1) s

/-- The Balance Mutation Engine operations named by the spec: transaction
create/delete, allocation mark-paid, borrowing create/pay/delete. -/
def Op.isEngine : Op → Bool
  | .txnCreate _ _ _ _ => true
  | .txnDelete _ => true
  | .markPaid _ _ _ => true
  | .borrowCreate _ _ _ => true
  | .borrowPay _ _ _ => true
  | .borrowDelete _ => true
  | _ => false

/-- Requests that write a caller-supplied balance straight onto an
account: exactly `PUT /api/accounts/:id` with a `balance` field. -/
def Op.writesBalanceField : Op → Bool
  | .accountUpdate _ (some _) => true
  | _ => false

/-! ## Invariants -/

/-- Every stored account balance is non-negative. -/
abbrev BalOk (s : St) : Prop :=
  ∀ p ∈ s.accounts, 0 ≤ p.2

/-- The Borrowing coherence invariant of the spec:
`remainingAmount = max(totalAmount - paidAmount, 0)` and
`status = completed ↔ remainingAmount = 0`. -/
abbrev BorrowingInv (b : Borrowing) : Prop :=
  b.remainingAmount = max (b.totalAmount - b.paidAmount) 0 ∧
  (b.status = .completed ↔ b.remainingAmount = 0)

/-- Every stored borrowing satisfies `BorrowingInv`. -/
abbrev BorrowingsOk (s : St) : Prop :=
  ∀ p ∈ s.borrowings, BorrowingInv p.2

/-- Entries of a monthly-payment list carrying a given month key. -/
def countMonth (l : List MonthlyPayment) (m : String) : Nat :=
  (l.filter (fun p => p.month == m)).length

/-! ## Association-list lemmas -/

theorem lookupId_cons {α : Type} (a : Nat) (b : α) (rest : List (Nat × α))
    (i : Nat) :
    lookupId ((a, b) :: rest) i = if a = i then some b else lookupId rest i := by
  unfold lookupId
  by_cases ha : a = i
  · rw [List.find?_cons_of_pos _ (by simpa using ha)]
    simp [ha]
  · rw [List.find?_cons_of_neg _ (by simpa using ha)]
    simp [ha]

theorem setId_cons {α : Type} (a : Nat) (b : α) (rest : List (Nat × α))
    (i : Nat) (v : α) :
    setId ((a, b) :: rest) i v =
      (if a = i then (i, v) else (a, b)) :: setId rest i v := by
  unfold setId
  by_cases ha : a = i <;> simp [ha]

theorem removeId_cons {α : Type} (a : Nat) (b : α) (rest : List (Nat × α))
    (i : Nat) :
    removeId ((a, b) :: rest) i =
      if a = i then removeId rest i else (a, b) :: removeId rest i := by
  unfold removeId
  by_cases ha : a = i <;> simp [List.filter_cons, ha]

theorem lookupId_mem {α : Type} {l : List (Nat × α)} {i : Nat} {v : α}
    (h : lookupId l i = some v) : (i, v) ∈ l := by
  induction l with
  | nil => simp [lookupId] at h
  | cons q rest ih =>
    rcases q with ⟨a, b⟩
    rw [lookupId_cons] at h
    by_cases ha : a = i
    · simp only [ha, if_true, Option.some_inj] at h
      subst ha
      subst h
      exact List.mem_cons_self _ _
    · simp only [ha, if_false] at h
      exact List.mem_cons_of_mem _ (ih h)

theorem forall_setId {α : Type} {P : Nat × α → Prop} {l : List (Nat × α)}
    {i : Nat} {v : α} (h : ∀ p ∈ l, P p) (hv : P (i, v)) :
    ∀ p ∈ setId l i v, P p := by
  intro p hp
  unfold setId at hp
  rcases List.mem_map.mp hp with ⟨q, hq, rfl⟩
  split
  · exact hv
  · exact h q hq

theorem forall_removeId {α : Type} {P : Nat × α → Prop} {l : List (Nat × α)}
    {i : Nat} (h : ∀ p ∈ l, P p) : ∀ p ∈ removeId l i, P p := by
  intro p hp
  exact h p (List.mem_of_mem_filter hp)

theorem forall_append_one {α : Type} {P : Nat × α → Prop} {l : List (Nat × α)}
    {x : Nat × α} (h : ∀ p ∈ l, P p) (hx : P x) : ∀ p ∈ l ++ [x], P p := by
  intro p hp
  rcases List.mem_append.mp hp with h1 | h1
  · exact h p h1
  · simp only [List.mem_singleton] at h1
    rwa [h1]

theorem lookupId_setId_self {α : Type} {l : List (Nat × α)} {i : Nat}
    {w : α} (v : α) (h : lookupId l i = some w) :
    lookupId (setId l i v) i = some v := by
  induction l with
  | nil => simp [lookupId] at h
  | cons q rest ih =>
    rcases q with ⟨a, b⟩
    rw [lookupId_cons] at h
    rw [setId_cons]
    by_cases ha : a = i
    · simp [ha, lookupId_cons]
    · simp only [ha, if_false] at h ⊢
      rw [lookupId_cons]
      simp only [ha, if_false]
      exact ih h

theorem lookupId_setId_ne {α : Type} (l : List (Nat × α)) (i j : Nat)
    (v : α) (h : i ≠ j) : lookupId (setId l i v) j = lookupId l j := by
  induction l with
  | nil => rfl
  | cons q rest ih =>
    rcases q with ⟨a, b⟩
    rw [setId_cons, lookupId_cons]
    by_cases ha : a = i
    · simp only [ha, if_true]
      rw [lookupId_cons]
      simp [ha, h, ih]
    · simp only [ha, if_false]
      rw [lookupId_cons]
      by_cases hj : a = j <;> simp [hj, ih]

theorem lookupId_append_fresh {α : Type} {l : List (Nat × α)} {n : Nat}
    (v : α) (h : ∀ p ∈ l, p.1 < n) : lookupId (l ++ [(n, v)]) n = some v := by
  induction l with
  | nil => simp [lookupId, List.find?]
  | cons q rest ih =>
    rcases q with ⟨a, b⟩
    have ha : a ≠ n := Nat.ne_of_lt (h (a, b) (by simp))
    rw [List.cons_append, lookupId_cons]
    simp only [ha, if_false]
    exact ih fun p hp => h p (by simp [hp])

theorem lookupId_append_left {α : Type} {l : List (Nat × α)} {i : Nat}
    {v : α} (l2 : List (Nat × α)) (h : lookupId l i = some v) :
    lookupId (l ++ l2) i = some v := by
  unfold lookupId at *
  cases hf : l.find? (fun p => p.1 == i) with
  | none => simp [hf] at h
  | some q =>
    rw [List.find?_append, hf]
    simpa [hf] using h

theorem lookupId_removeId_self {α : Type} (l : List (Nat × α)) (i : Nat) :
    lookupId (removeId l i) i = none := by
  unfold lookupId removeId
  cases hf : (l.filter (fun p => p.1 != i)).find? (fun p => p.1 == i) with
  | none => rfl
  | some q =>
    have h1 := List.find?_some hf
    have h2 := List.mem_of_find?_eq_some hf
    have h3 := List.of_mem_filter h2
    simp only [beq_iff_eq] at h1
    simp [h1] at h3

theorem lookupId_removeId_ne {α : Type} (l : List (Nat × α)) (i j : Nat)
    (h : i ≠ j) : lookupId (removeId l i) j = lookupId l j := by
  induction l with
  | nil => rfl
  | cons q rest ih =>
    rcases q with ⟨a, b⟩
    rw [removeId_cons, lookupId_cons]
    by_cases ha : a = i
    · have hj : a ≠ j := by rw [ha]; exact h
      simp [ha, hj, ih, h]
    · rw [if_neg ha, lookupId_cons]
      by_cases hj : a = j <;> simp [hj, ih]

theorem removeId_append_fresh {α : Type} {l : List (Nat × α)} {n : Nat}
    (v : α) (h : ∀ p ∈ l, p.1 < n) : removeId (l ++ [(n, v)]) n = l := by
  unfold removeId
  rw [List.filter_append]
  have h1 : l.filter (fun p => p.1 != n) = l :=
    List.filter_eq_self.mpr fun p hp => by
      simpa using Nat.ne_of_lt (h p hp)
  have h2 : ([(n, v)] : List (Nat × α)).filter (fun p => p.1 != n) = [] := by
    simp
  rw [h1, h2, List.append_nil]

/-! ## Preservation of non-negative balances -/

theorem lookupId_nonneg {s : St} (h : BalOk s) {i : Nat} {b : Int}
    (hl : lookupId s.accounts i = some b) : 0 ≤ b :=
  h (i, b) (lookupId_mem hl)

theorem balOk_txnCreate (s : St) (a c : Nat) (ty : TxnType) (amt : Int)
    (h : BalOk s) : BalOk (txnCreate s a c ty amt).1 := by
  unfold txnCreate
  repeat' first
    | split
    | (dsimp only; split)
  all_goals first
    | exact h
    | exact forall_setId h (by omega)

theorem balOk_txnDelete (s : St) (tid : Nat) (h : BalOk s) :
    BalOk (txnDelete s tid).1 := by
  unfold txnDelete
  repeat' first
    | split
    | (dsimp only; split)
  all_goals first
    | exact h
    | exact forall_setId h (by omega)

theorem balOk_markPaid (s : St) (al ac : Nat) (m : String) (h : BalOk s) :
    BalOk (markPaid s al ac m).1 := by
  unfold markPaid
  repeat' first
    | split
    | (dsimp only; split)
  all_goals first
    | exact h
    | exact forall_setId h (by omega)

theorem balOk_borrowCreate (s : St) (ty : BorrowType) (t : Int)
    (acc : Option Nat) (h : BalOk s) : BalOk (borrowCreate s ty t acc).1 := by
  unfold borrowCreate
  repeat' first
    | split
    | (dsimp only; split)
  all_goals first
    | exact h
    | exact forall_setId h (by omega)

theorem balOk_borrowPay (s : St) (bid : Nat) (amt : Int) (ac : Nat)
    (h : BalOk s) : BalOk (borrowPay s bid amt ac).1 := by
  unfold borrowPay
  repeat' first
    | split
    | (dsimp only; split)
  all_goals first
    | exact h
    | exact forall_setId h (by omega)

theorem balOk_borrowUpdate (s : St) (bid : Nat) (t : Option Int)
    (h : BalOk s) : BalOk (borrowUpdate s bid t).1 := by
  unfold borrowUpdate
  split
  · exact h
  split <;> exact h

theorem balOk_borrowDelete (s : St) (bid : Nat) (h : BalOk s) :
    BalOk (borrowDelete s bid).1 := by
  unfold borrowDelete
  repeat' first
    | split
    | (dsimp only; split)
  all_goals first
    | exact h
    | exact forall_setId h (by omega)

theorem balOk_accountCreate (s : St) (b : Int) (h : BalOk s) :
    BalOk (accountCreate s b).1 := by
  unfold accountCreate
  split
  · exact h
  exact forall_append_one h (by omega)

theorem balOk_accountUpdate (s : St) (aid : Nat) (nb : Option Int)
    (h : BalOk s) : BalOk (accountUpdate s aid nb).1 := by
  unfold accountUpdate
  repeat' first
    | split
    | (dsimp only; split)
  all_goals first
    | exact h
    | exact forall_setId h (by omega)

theorem balOk_allocCreate (s : St) (amt : Int) (ty : AllocType) (ac : Bool)
    (h : BalOk s) : BalOk (allocCreate s amt ty ac).1 := by
  unfold allocCreate
  split <;> exact h

theorem balOk_allocUpdate (s : St) (aid : Nat) (amt : Option Int)
    (ty : Option AllocType) (ac : Option Bool) (h : BalOk s) :
    BalOk (allocUpdate s aid amt ty ac).1 := by
  unfold allocUpdate
  split
  · exact h
  split <;> exact h

theorem balOk_allocDelete (s : St) (aid : Nat) (h : BalOk s) :
    BalOk (allocDelete s aid).1 := by
  unfold allocDelete
  split <;> exact h

theorem balOk_step (s : St) (op : Op) (h : BalOk s) : BalOk (step s op).1 := by
  cases op with
  | txnCreate a c ty amt => exact balOk_txnCreate s a c ty amt h
  | txnDelete tid => exact balOk_txnDelete s tid h
  | markPaid al ac m => exact balOk_markPaid s al ac m h
  | borrowCreate ty t acc => exact balOk_borrowCreate s ty t acc h
  | borrowPay bid amt ac => exact balOk_borrowPay s bid amt ac h
  | borrowUpdate bid t => exact balOk_borrowUpdate s bid t h
  | borrowDelete bid => exact balOk_borrowDelete s bid h
  | accountCreate b => exact balOk_accountCreate s b h
  | accountUpdate aid nb => exact balOk_accountUpdate s aid nb h
  | allocCreate amt ty ac => exact balOk_allocCreate s amt ty ac h
  | allocUpdate aid amt ty ac => exact balOk_allocUpdate s aid amt ty ac h
  | allocDelete aid => exact balOk_allocDelete s aid h

theorem balOk_run (s : St) (ops : List Op) (h : BalOk s) :
    BalOk (run s ops) := by
  induction ops generalizing s with
  | nil => exact h
  | cons op rest ih => exact ih _ (balOk_step s op h)

/-! ## Preservation of the Borrowing coherence invariant -/

theorem borrowingInv_hook (b : Borrowing) :
    BorrowingInv (borrowingSaveHook b) := by
  unfold borrowingSaveHook BorrowingInv
  by_cases hr : b.totalAmount - b.paidAmount ≤ 0
  · simp only [hr, if_true]
    exact ⟨by rw [max_eq_right hr], by simp⟩
  · simp only [hr, if_false]
    push_neg at hr
    refine ⟨by rw [max_eq_left hr.le], ?_⟩
    constructor
    · intro hc
      cases hc
    · intro hc
      exact absurd hc (ne_of_gt hr)

theorem borrowingsOk_txnCreate (s : St) (a c : Nat) (ty : TxnType)
    (amt : Int) (h : BorrowingsOk s) : BorrowingsOk (txnCreate s a c ty amt).1 := by
  unfold txnCreate
  repeat' first
    | split
    | (dsimp only; split)
  all_goals exact h

theorem borrowingsOk_txnDelete (s : St) (tid : Nat) (h : BorrowingsOk s) :
    BorrowingsOk (txnDelete s tid).1 := by
  unfold txnDelete
  repeat' first
    | split
    | (dsimp only; split)
  all_goals exact h

theorem borrowingsOk_markPaid (s : St) (al ac : Nat) (m : String)
    (h : BorrowingsOk s) : BorrowingsOk (markPaid s al ac m).1 := by
  unfold markPaid
  repeat' first
    | split
    | (dsimp only; split)
  all_goals exact h

theorem borrowingsOk_borrowCreate (s : St) (ty : BorrowType) (t : Int)
    (acc : Option Nat) (h : BorrowingsOk s) :
    BorrowingsOk (borrowCreate s ty t acc).1 := by
  unfold borrowCreate
  repeat' first
    | split
    | (dsimp only; split)
  all_goals first
    | exact h
    | exact forall_append_one h (borrowingInv_hook _)

theorem borrowingsOk_borrowPay (s : St) (bid : Nat) (amt : Int) (ac : Nat)
    (h : BorrowingsOk s) : BorrowingsOk (borrowPay s bid amt ac).1 := by
  unfold borrowPay
  repeat' first
    | split
    | (dsimp only; split)
  all_goals first
    | exact h
    | exact forall_setId h (borrowingInv_hook _)

theorem borrowingsOk_borrowUpdate (s : St) (bid : Nat) (t : Option Int)
    (h : BorrowingsOk s) : BorrowingsOk (borrowUpdate s bid t).1 := by
  unfold borrowUpdate
  split
  · exact h
  split
  · exact h
  cases t <;> exact forall_setId h (borrowingInv_hook _)

theorem borrowingsOk_borrowDelete (s : St) (bid : Nat) (h : BorrowingsOk s) :
    BorrowingsOk (borrowDelete s bid).1 := by
  unfold borrowDelete
  repeat' first
    | split
    | (dsimp only; split)
  all_goals first
    | exact h
    | exact forall_removeId h

theorem borrowingsOk_accountCreate (s : St) (b : Int) (h : BorrowingsOk s) :
    BorrowingsOk (accountCreate s b).1 := by
  unfold accountCreate
  split <;> exact h

theorem borrowingsOk_accountUpdate (s : St) (aid : Nat) (nb : Option Int)
    (h : BorrowingsOk s) : BorrowingsOk (accountUpdate s aid nb).1 := by
  unfold accountUpdate
  split
  · exact h
  split
  · exact h
  dsimp only
  split <;> exact h

theorem borrowingsOk_allocCreate (s : St) (amt : Int) (ty : AllocType)
    (ac : Bool) (h : BorrowingsOk s) :
    BorrowingsOk (allocCreate s amt ty ac).1 := by
  unfold allocCreate
  split <;> exact h

theorem borrowingsOk_allocUpdate (s : St) (aid : Nat) (amt : Option Int)
    (ty : Option AllocType) (ac : Option Bool) (h : BorrowingsOk s) :
    BorrowingsOk (allocUpdate s aid amt ty ac).1 := by
  unfold allocUpdate
  split
  · exact h
  split <;> exact h

theorem borrowingsOk_allocDelete (s : St) (aid : Nat) (h : BorrowingsOk s) :
    BorrowingsOk (allocDelete s aid).1 := by
  unfold allocDelete
  split <;> exact h

theorem borrowingsOk_step (s : St) (op : Op) (h : BorrowingsOk s) :
    BorrowingsOk (step s op).1 := by
  cases op with
  | txnCreate a c ty amt => exact borrowingsOk_txnCreate s a c ty amt h
  | txnDelete tid => exact borrowingsOk_txnDelete s tid h
  | markPaid al ac m => exact borrowingsOk_markPaid s al ac m h
  | borrowCreate ty t acc => exact borrowingsOk_borrowCreate s ty t acc h
  | borrowPay bid amt ac => exact borrowingsOk_borrowPay s bid amt ac h
  | borrowUpdate bid t => exact borrowingsOk_borrowUpdate s bid t h
  | borrowDelete bid => exact borrowingsOk_borrowDelete s bid h
  | accountCreate b => exact borrowingsOk_accountCreate s b h
  | accountUpdate aid nb => exact borrowingsOk_accountUpdate s aid nb h
  | allocCreate amt ty ac => exact borrowingsOk_allocCreate s amt ty ac h
  | allocUpdate aid amt ty ac => exact borrowingsOk_allocUpdate s aid amt ty ac h
  | allocDelete aid => exact borrowingsOk_allocDelete s aid h

theorem borrowingsOk_run (s : St) (ops : List Op) (h : BorrowingsOk s) :
    BorrowingsOk (run s ops) := by
  induction ops generalizing s with
  | nil => exact h
  | cons op rest ih => exact ih _ (borrowingsOk_step s op h)

/-! ## Monthly-payment list lemmas -/

theorem countMonth_cons (p : MonthlyPayment) (rest : List MonthlyPayment)
    (m : String) :
    countMonth (p :: rest) m =
      if p.month == m then countMonth rest m + 1 else countMonth rest m := by
  unfold countMonth
  by_cases hp : p.month == m <;> simp [List.filter_cons, hp]

theorem countMonth_append_one (l : List MonthlyPayment) (m : String)
    (pay : MonthlyPayment) (hp : pay.month = m) :
    countMonth (l ++ [pay]) m = countMonth l m + 1 := by
  unfold countMonth
  rw [List.filter_append]
  simp [List.filter_cons, hp]

theorem findMonthIdx_none_iff (l : List MonthlyPayment) (m : String) :
    findMonthIdx l m = none ↔ countMonth l m = 0 := by
  induction l with
  | nil => simp [findMonthIdx, countMonth]
  | cons p rest ih =>
    rw [countMonth_cons]
    unfold findMonthIdx
    by_cases hp : p.month == m
    · simp [hp]
    · simp [hp, Option.map_eq_none', ih]

theorem findMonthIdx_cons (p : MonthlyPayment) (rest : List MonthlyPayment)
    (m : String) :
    findMonthIdx (p :: rest) m =
      if p.month == m then some 0 else (findMonthIdx rest m).map (· + 1) :=
  rfl

theorem countMonth_set (l : List MonthlyPayment) (m : String) (i : Nat)
    (pay : MonthlyPayment) (hf : findMonthIdx l m = some i)
    (hp : pay.month = m) : countMonth (l.set i pay) m = countMonth l m := by
  induction l generalizing i with
  | nil => simp [findMonthIdx] at hf
  | cons p rest ih =>
    rw [findMonthIdx_cons] at hf
    by_cases hpm : p.month == m
    · simp only [hpm, if_true, Option.some_inj] at hf
      subst hf
      rw [List.set_cons_zero, countMonth_cons, countMonth_cons]
      simp [hpm, hp]
    · simp only [hpm, Bool.false_eq_true, if_false, Option.map_eq_some'] at hf
      rcases hf with ⟨j, hj, hij⟩
      subst hij
      rw [List.set_cons_succ, countMonth_cons, countMonth_cons]
      simp [hpm, ih j hj]

theorem findMonthIdx_some_count_pos (l : List MonthlyPayment) (m : String)
    (i : Nat) (hf : findMonthIdx l m = some i) : 1 ≤ countMonth l m := by
  by_contra hc
  have h0 : countMonth l m = 0 := by omega
  have hn := (findMonthIdx_none_iff l m).mpr h0
  rw [hn] at hf
  cases hf

/-! ## Small facts about guards and the save hook -/

theorem validAmount_le {a : Int} (h : validAmount a = true) : 1 ≤ a := by
  unfold validAmount at h
  exact of_decide_eq_true h

theorem validAmountF_le {a : Int} (h : validAmountF a = true) :
    oneCentB64 ≤ a := by
  unfold validAmountF at h
  exact of_decide_eq_true h

theorem borrowingSaveHook_paidAmount (b : Borrowing) :
    (borrowingSaveHook b).paidAmount = b.paidAmount := by
  unfold borrowingSaveHook
  by_cases hr : b.totalAmount - b.paidAmount ≤ 0 <;> simp [hr]

theorem borrowingSaveHook_type (b : Borrowing) :
    (borrowingSaveHook b).type = b.type := by
  unfold borrowingSaveHook
  by_cases hr : b.totalAmount - b.paidAmount ≤ 0 <;> simp [hr]

/-! ## The claims -/

/-- C1: for every Account, after any sequence of committed operations
(transaction create/delete, allocation mark-paid, borrowing
create/pay/delete, borrowing/account/allocation CRUD), the stored balance
is ≥ 0.  The unguarded reversals (transaction delete, borrowing delete)
cannot commit a negative balance because the Account schema's `min: [0]`
validator makes that `save()` throw, so the write never lands. -/
theorem c1_balances_nonneg (s0 : St) (ops : List Op) (h : BalOk s0) :
    BalOk (run s0 ops) :=
  balOk_run s0 ops h

theorem c1_balances_nonneg_witness :
    BalOk (⟨[(0, 10)], [(1, .expense)], [], [(2, ⟨5, .expense, true, []⟩)],
      [], [], 3⟩ : St) ∧
    BalOk (run ⟨[(0, 10)], [(1, .expense)], [], [(2, ⟨5, .expense, true, []⟩)],
      [], [], 3⟩
      [.borrowCreate .borrow 40 (some 0), .borrowPay 3 40 0, .borrowDelete 3,
       .txnCreate 0 1 .expense 5, .markPaid 2 0 "2025-01",
       .accountUpdate 0 (some 7), .txnDelete 5]) :=
  ⟨by decide, c1_balances_nonneg _ _ (by decide)⟩

/-- C3: for every Borrowing, at every state observable after a committed
operation, `remainingAmount = max(totalAmount - paidAmount, 0)` and
`status = completed ↔ remainingAmount = 0`: the `pre('save')` hook
recomputes both fields on every save, so every stored Borrowing satisfies
the invariant after any request sequence. -/
theorem c3_borrowing_invariant (s0 : St) (ops : List Op)
    (h : BorrowingsOk s0) : BorrowingsOk (run s0 ops) :=
  borrowingsOk_run s0 ops h

theorem c3_borrowing_invariant_witness :
    BorrowingsOk (⟨[(0, 200)], [], [], [], [], [], 1⟩ : St) ∧
    BorrowingsOk (run ⟨[(0, 200)], [], [], [], [], [], 1⟩
      [.borrowCreate .lend 50 (some 0), .borrowPay 1 30 0,
       .borrowUpdate 1 (some 30), .borrowCreate .borrow 20 none,
       .borrowPay 3 20 0]) :=
  ⟨by decide, c3_borrowing_invariant _ _ (by decide)⟩

/-- C8: a mark-paid call on an expense or savings Allocation whose account
balance is below the allocation amount is rejected with the
insufficient-balance error before any mutation: the returned store is the
original one, so the monthlyPayments set, every Account balance, and the
Transaction collection are all unchanged. -/
theorem c8_markPaid_insufficient (s : St) (al ac : Nat) (m : String)
    (alloc : Allocation) (bal : Int)
    (hm : monthOk m = true)
    (hal : lookupId s.allocations al = some alloc)
    (hac : lookupId s.accounts ac = some bal)
    (hty : alloc.type ≠ .income)
    (hbal : bal < alloc.amount) :
    markPaid s al ac m = (s, .err .insufficientBalance) := by
  unfold markPaid
  rw [hal, hac]
  simp [hm, hty, hbal]

theorem c8_markPaid_insufficient_witness :
    monthOk "2025-01" = true ∧
    lookupId (⟨[(0, 0)], [], [], [(1, ⟨20, .expense, true,
        [⟨"2025-01", 0, true⟩]⟩)], [], [], 2⟩ : St).allocations 1 =
      some ⟨20, .expense, true, [⟨"2025-01", 0, true⟩]⟩ ∧
    markPaid ⟨[(0, 0)], [], [], [(1, ⟨20, .expense, true,
        [⟨"2025-01", 0, true⟩]⟩)], [], [], 2⟩ 1 0 "2025-01" =
      (⟨[(0, 0)], [], [], [(1, ⟨20, .expense, true,
        [⟨"2025-01", 0, true⟩]⟩)], [], [], 2⟩, .err .insufficientBalance) :=
  ⟨by decide, by decide,
    c8_markPaid_insufficient
      ⟨[(0, 0)], [], [], [(1, ⟨20, .expense, true, [⟨"2025-01", 0, true⟩]⟩)],
        [], [], 2⟩ 1 0 "2025-01"
      ⟨20, .expense, true, [⟨"2025-01", 0, true⟩]⟩ 0 (by decide) (by decide)
      (by decide) (by decide) (by decide)⟩

/-- C10: deleting an Allocation removes only the Allocation record: the
handler touches no account, no transaction and no borrowing ledger entry,
however many monthlyPayments entries the Allocation holds. -/
theorem c10_allocDelete_frame (s : St) (aid : Nat) (alloc : Allocation)
    (h : lookupId s.allocations aid = some alloc) :
    (allocDelete s aid).1.accounts = s.accounts ∧
    (allocDelete s aid).1.transactions = s.transactions ∧
    (allocDelete s aid).1.btxns = s.btxns ∧
    lookupId (allocDelete s aid).1.allocations aid = none ∧
    (allocDelete s aid).2 = .ok := by
  unfold allocDelete
  rw [h]
  exact ⟨rfl, rfl, rfl, lookupId_removeId_self _ _, rfl⟩

theorem c10_allocDelete_frame_witness :
    lookupId (⟨[(0, 50)], [], [(7, ⟨0, 1, .expense, 20⟩)],
      [(1, ⟨20, .expense, true, [⟨"2025-01", 0, true⟩, ⟨"2025-02", 0, true⟩]⟩)],
      [], [], 8⟩ : St).allocations 1 =
      some ⟨20, .expense, true, [⟨"2025-01", 0, true⟩, ⟨"2025-02", 0, true⟩]⟩ ∧
    ((allocDelete ⟨[(0, 50)], [], [(7, ⟨0, 1, .expense, 20⟩)],
      [(1, ⟨20, .expense, true, [⟨"2025-01", 0, true⟩, ⟨"2025-02", 0, true⟩]⟩)],
      [], [], 8⟩ 1).1.accounts = [(0, 50)] ∧
     (allocDelete ⟨[(0, 50)], [], [(7, ⟨0, 1, .expense, 20⟩)],
      [(1, ⟨20, .expense, true, [⟨"2025-01", 0, true⟩, ⟨"2025-02", 0, true⟩]⟩)],
      [], [], 8⟩ 1).1.transactions = [(7, ⟨0, 1, .expense, 20⟩)]) :=
  ⟨by decide,
    ((c10_allocDelete_frame
      ⟨[(0, 50)], [], [(7, ⟨0, 1, .expense, 20⟩)],
        [(1, ⟨20, .expense, true, [⟨"2025-01", 0, true⟩, ⟨"2025-02", 0, true⟩]⟩)],
        [], [], 8⟩ 1
      ⟨20, .expense, true, [⟨"2025-01", 0, true⟩, ⟨"2025-02", 0, true⟩]⟩
      (by decide)).1),
    ((c10_allocDelete_frame
      ⟨[(0, 50)], [], [(7, ⟨0, 1, .expense, 20⟩)],
        [(1, ⟨20, .expense, true, [⟨"2025-01", 0, true⟩, ⟨"2025-02", 0, true⟩]⟩)],
        [], [], 8⟩ 1
      ⟨20, .expense, true, [⟨"2025-01", 0, true⟩, ⟨"2025-02", 0, true⟩]⟩
      (by decide)).2.1)⟩

/-- C9 counterexample: `PUT /api/accounts/:id` is not one of the Balance
Mutation Engine operations, yet when its body carries a `balance` field it
writes that value straight onto the account — here a non-engine request
changes a stored balance from 10 to 5. -/
theorem c9_counterexample :
    Op.isEngine (.accountUpdate 1 (some 5)) = false ∧
    lookupId (⟨[(1, 10)], [], [], [], [], [], 2⟩ : St).accounts 1 = some 10 ∧
    lookupId (step ⟨[(1, 10)], [], [], [], [], [], 2⟩
      (.accountUpdate 1 (some 5))).1.accounts 1 = some 5 := by
  decide

/-- C9 amended: every operation other than the Balance Mutation Engine
operations and other than an account update carrying a `balance` field
leaves every existing Account balance unchanged. -/
theorem c9_frame_nonengine (s : St) (op : Op) (aid : Nat) (bal : Int)
    (h1 : op.isEngine = false)
    (h2 : op.writesBalanceField = false)
    (h : lookupId s.accounts aid = some bal) :
    lookupId (step s op).1.accounts aid = some bal := by
  cases op with
  | txnCreate a c ty amt => simp [Op.isEngine] at h1
  | txnDelete tid => simp [Op.isEngine] at h1
  | markPaid al ac m => simp [Op.isEngine] at h1
  | borrowCreate ty t acc => simp [Op.isEngine] at h1
  | borrowPay bid amt ac => simp [Op.isEngine] at h1
  | borrowDelete bid => simp [Op.isEngine] at h1
  | borrowUpdate bid t =>
    simp only [step]
    unfold borrowUpdate
    split
    · exact h
    split
    · exact h
    exact h
  | accountCreate b =>
    simp only [step]
    unfold accountCreate
    split
    · exact h
    exact lookupId_append_left _ h
  | accountUpdate aid2 nb =>
    cases nb with
    | some b2 => simp [Op.writesBalanceField] at h2
    | none =>
      simp only [step]
      unfold accountUpdate
      rw [if_neg (by simp)]
      cases hacc : lookupId s.accounts aid2 with
      | none => exact h
      | some bal2 =>
        dsimp only
        split
        · exact h
        by_cases hij : aid2 = aid
        · subst hij
          rw [hacc] at h
          have hbb : bal2 = bal := Option.some_inj.mp h
          rw [← hbb]
          exact lookupId_setId_self _ hacc
        · rw [lookupId_setId_ne _ _ _ _ hij]
          exact h
  | allocCreate amt ty ac =>
    simp only [step]
    unfold allocCreate
    split <;> exact h
  | allocUpdate aid2 amt ty ac =>
    simp only [step]
    unfold allocUpdate
    split
    · exact h
    split
    · exact h
    exact h
  | allocDelete aid2 =>
    simp only [step]
    unfold allocDelete
    split <;> exact h

theorem c9_frame_nonengine_witness :
    Op.isEngine (.allocDelete 1) = false ∧
    Op.writesBalanceField (.allocDelete 1) = false ∧
    lookupId (⟨[(0, 10)], [], [], [(1, ⟨5, .expense, true, []⟩)], [], [],
      2⟩ : St).accounts 0 = some 10 ∧
    lookupId (step ⟨[(0, 10)], [], [], [(1, ⟨5, .expense, true, []⟩)], [], [],
      2⟩ (.allocDelete 1)).1.accounts 0 = some 10 :=
  ⟨by decide, by decide, by decide,
    c9_frame_nonengine ⟨[(0, 10)], [], [], [(1, ⟨5, .expense, true, []⟩)],
      [], [], 2⟩ (.allocDelete 1) 0 10 (by decide) (by decide) (by decide)⟩

/-- C2: creating an expense Transaction while the account balance is below
the amount is rejected with the insufficient-balance error, the balance is
unchanged and no Transaction record remains persisted (the tentatively
saved Transaction is deleted again by the handler); otherwise the
Transaction is persisted and the balance is adjusted by +amount for income
and −amount for expense. -/
theorem c2_txnCreate_guard (s : St) (a c : Nat) (ty : TxnType)
    (amt bal : Int)
    (hfresh : ∀ p ∈ s.transactions, p.1 < s.nextId)
    (hv : validAmount amt = true)
    (ha : lookupId s.accounts a = some bal)
    (hb : 0 ≤ bal)
    (hc : lookupId s.categories c = some ty) :
    (ty = .expense ∧ bal < amt →
      (txnCreate s a c ty amt).2 = .err .insufficientBalance ∧
      (txnCreate s a c ty amt).1.accounts = s.accounts ∧
      (txnCreate s a c ty amt).1.transactions = s.transactions) ∧
    (¬(ty = .expense ∧ bal < amt) →
      (txnCreate s a c ty amt).2 = .ok ∧
      (txnCreate s a c ty amt).1.transactions =
        s.transactions ++ [(s.nextId, ⟨a, c, ty, amt⟩)] ∧
      lookupId (txnCreate s a c ty amt).1.accounts a =
        some (bal + (match ty with | .income => amt | .expense => -amt))) := by
  have h1 : 1 ≤ amt := validAmount_le hv
  constructor
  · rintro ⟨hty, hlt⟩
    subst hty
    have hneg : bal + -amt < 0 := by omega
    have hrm := removeId_append_fresh
      ((⟨a, c, .expense, amt⟩ : Txn)) hfresh
    have hcr : txnCreate s a c .expense amt =
        ({ s with
            transactions := s.transactions,
            nextId := s.nextId + 1 }, .err .insufficientBalance) := by
      unfold txnCreate
      rw [ha, hc]
      simp [hv, hneg, hrm]
    rw [hcr]
    exact ⟨rfl, rfl, rfl⟩
  · intro hn
    cases ty with
    | income =>
      have hpos : ¬ (bal + amt < 0) := by omega
      have hcr : txnCreate s a c .income amt =
          ({ s with
              accounts := setId s.accounts a (bal + amt),
              transactions :=
                s.transactions ++ [(s.nextId, ⟨a, c, .income, amt⟩)],
              nextId := s.nextId + 1 }, .ok) := by
        unfold txnCreate
        rw [ha, hc]
        simp [hv, hpos]
      rw [hcr]
      exact ⟨rfl, rfl, lookupId_setId_self _ ha⟩
    | expense =>
      have hge : ¬ bal < amt := fun hlt => hn ⟨rfl, hlt⟩
      have hpos : ¬ (bal + -amt < 0) := by omega
      have hcr : txnCreate s a c .expense amt =
          ({ s with
              accounts := setId s.accounts a (bal + -amt),
              transactions :=
                s.transactions ++ [(s.nextId, ⟨a, c, .expense, amt⟩)],
              nextId := s.nextId + 1 }, .ok) := by
        unfold txnCreate
        rw [ha, hc]
        simp [hv, hpos]
      rw [hcr]
      exact ⟨rfl, rfl, lookupId_setId_self _ ha⟩

theorem c2_txnCreate_guard_witness :
    (∀ p ∈ (⟨[(0, 70)], [(1, .expense)], [], [], [], [], 2⟩ : St).transactions,
      p.1 < (⟨[(0, 70)], [(1, .expense)], [], [], [], [], 2⟩ : St).nextId) ∧
    validAmount 100 = true ∧
    lookupId (⟨[(0, 70)], [(1, .expense)], [], [], [], [],
      2⟩ : St).accounts 0 = some 70 ∧
    ((TxnType.expense = .expense ∧ (70 : Int) < 100 →
      (txnCreate ⟨[(0, 70)], [(1, .expense)], [], [], [], [],
        2⟩ 0 1 .expense 100).2 = .err .insufficientBalance ∧
      (txnCreate ⟨[(0, 70)], [(1, .expense)], [], [], [], [],
        2⟩ 0 1 .expense 100).1.accounts = [(0, 70)] ∧
      (txnCreate ⟨[(0, 70)], [(1, .expense)], [], [], [], [],
        2⟩ 0 1 .expense 100).1.transactions = []) ∧
    (¬(TxnType.expense = .expense ∧ (70 : Int) < 100) →
      (txnCreate ⟨[(0, 70)], [(1, .expense)], [], [], [], [],
        2⟩ 0 1 .expense 100).2 = .ok ∧
      (txnCreate ⟨[(0, 70)], [(1, .expense)], [], [], [], [],
        2⟩ 0 1 .expense 100).1.transactions =
        [] ++ [(2, ⟨0, 1, .expense, 100⟩)] ∧
      lookupId (txnCreate ⟨[(0, 70)], [(1, .expense)], [], [], [], [],
        2⟩ 0 1 .expense 100).1.accounts 0 =
        some (70 + (match TxnType.expense with
          | .income => (100 : Int) | .expense => -100)))) :=
  ⟨by decide, by decide, by decide,
    c2_txnCreate_guard ⟨[(0, 70)], [(1, .expense)], [], [], [], [], 2⟩
      0 1 .expense 100 70 (by decide) (by decide) (by decide) (by decide)
      (by decide)⟩

/-- C4 counterexample: with the JavaScript binary64 arithmetic of the
source, create-then-delete does not restore the balance exactly.  Start
from the double nearest 0.1 (57646075230342352/2^59) and create an income
Transaction for the double nearest 0.2 (115292150460684704/2^59); both
pass validation.  The creation commits fl(0.1 + 0.2) =
0.30000000000000004 and answers ok; deleting the Transaction also answers
ok but commits fl(0.30000000000000004 − 0.2) = 0.10000000000000003
(57646075230342368/2^59), which is not the pre-creation balance. -/
theorem c4_roundtrip_counterexample :
    (txnCreateF ⟨[(0, 57646075230342352)], [(1, .income)], [], [], [], [],
      2⟩ 0 1 .income 115292150460684704).2 = .ok ∧
    (txnDeleteF (txnCreateF ⟨[(0, 57646075230342352)], [(1, .income)], [],
      [], [], [], 2⟩ 0 1 .income 115292150460684704).1 2).2 = .ok ∧
    lookupId (txnDeleteF (txnCreateF ⟨[(0, 57646075230342352)],
      [(1, .income)], [], [], [], [], 2⟩ 0 1 .income
      115292150460684704).1 2).1.accounts 0 = some 57646075230342368 ∧
    (57646075230342368 : Int) ≠ 57646075230342352 := by
  decide

/-- C4 amended: deleting a successfully created Transaction applies the
exact inverse delta, so whenever the two stored additions incur no
binary64 rounding — the created sum is exact and the starting balance is
itself representable, as holds in particular for amounts and balances
that are integer multiples of a unit (cents) with the arithmetic inside
53 bits — the balance is restored to exactly its pre-creation value and
the Transaction record is removed; with rounding the round trip can
drift, as the counterexample shows. -/
theorem c4_txn_roundtripF (s : St) (a c : Nat) (ty : TxnType)
    (amt bal : Int)
    (hfresh : ∀ p ∈ s.transactions, p.1 < s.nextId)
    (hv : validAmountF amt = true)
    (ha : lookupId s.accounts a = some bal)
    (hb : 0 ≤ bal)
    (hc : lookupId s.categories c = some ty)
    (hok : (txnCreateF s a c ty amt).2 = .ok)
    (hd1 : flDyadic (bal +
        (match ty with | .income => amt | .expense => -amt)) =
      bal + (match ty with | .income => amt | .expense => -amt))
    (hd2 : flDyadic bal = bal) :
    (txnDeleteF (txnCreateF s a c ty amt).1 s.nextId).2 = .ok ∧
    lookupId (txnDeleteF (txnCreateF s a c ty amt).1 s.nextId).1.accounts
      a = some bal ∧
    (txnDeleteF (txnCreateF s a c ty amt).1 s.nextId).1.transactions =
      s.transactions := by
  cases ty with
  | income =>
    have hnn : ¬ (flDyadic (bal + amt) < 0) := by
      intro hneg
      have hcr : (txnCreateF s a c .income amt).2 =
          .err .insufficientBalance := by
        unfold txnCreateF
        rw [ha, hc]
        simp [hv, hneg]
      rw [hcr] at hok
      cases hok
    have hcr : txnCreateF s a c .income amt =
        ({ s with
            accounts := setId s.accounts a (flDyadic (bal + amt)),
            transactions :=
              s.transactions ++ [(s.nextId, ⟨a, c, .income, amt⟩)],
            nextId := s.nextId + 1 }, .ok) := by
      unfold txnCreateF
      rw [ha, hc]
      simp [hv, hnn]
    rw [hcr, hd1] at *
    have hlt : lookupId
        (s.transactions ++ [(s.nextId, (⟨a, c, .income, amt⟩ : Txn))])
        s.nextId = some ⟨a, c, .income, amt⟩ :=
      lookupId_append_fresh _ hfresh
    have hla : lookupId (setId s.accounts a (bal + amt)) a =
        some (bal + amt) := lookupId_setId_self _ ha
    unfold txnDeleteF
    dsimp only
    rw [hlt]
    dsimp only
    rw [hla]
    dsimp only
    rw [show bal + amt + -amt = bal by omega, hd2,
      if_neg (by omega : ¬ bal < 0)]
    exact ⟨rfl, lookupId_setId_self _ hla, removeId_append_fresh _ hfresh⟩
  | expense =>
    have hnn : ¬ (flDyadic (bal + -amt) < 0) := by
      intro hneg
      have hcr : (txnCreateF s a c .expense amt).2 =
          .err .insufficientBalance := by
        unfold txnCreateF
        rw [ha, hc]
        simp [hv, hneg]
      rw [hcr] at hok
      cases hok
    have hcr : txnCreateF s a c .expense amt =
        ({ s with
            accounts := setId s.accounts a (flDyadic (bal + -amt)),
            transactions :=
              s.transactions ++ [(s.nextId, ⟨a, c, .expense, amt⟩)],
            nextId := s.nextId + 1 }, .ok) := by
      unfold txnCreateF
      rw [ha, hc]
      simp [hv, hnn]
    rw [hcr, hd1] at *
    have hlt : lookupId
        (s.transactions ++ [(s.nextId, (⟨a, c, .expense, amt⟩ : Txn))])
        s.nextId = some ⟨a, c, .expense, amt⟩ :=
      lookupId_append_fresh _ hfresh
    have hla : lookupId (setId s.accounts a (bal + -amt)) a =
        some (bal + -amt) := lookupId_setId_self _ ha
    unfold txnDeleteF
    dsimp only
    rw [hlt]
    dsimp only
    rw [hla]
    dsimp only
    rw [show bal + -amt + amt = bal by omega, hd2,
      if_neg (by omega : ¬ bal < 0)]
    exact ⟨rfl, lookupId_setId_self _ hla, removeId_append_fresh _ hfresh⟩

theorem c4_txn_roundtripF_witness :
    validAmountF 144115188075855872 = true ∧
    (txnCreateF ⟨[(0, 288230376151711744)], [(1, .income)], [], [], [], [],
      2⟩ 0 1 .income 144115188075855872).2 = .ok ∧
    flDyadic (288230376151711744 + 144115188075855872) =
      288230376151711744 + 144115188075855872 ∧
    flDyadic 288230376151711744 = 288230376151711744 ∧
    ((txnDeleteF (txnCreateF ⟨[(0, 288230376151711744)], [(1, .income)],
        [], [], [], [], 2⟩ 0 1 .income 144115188075855872).1 2).2 = .ok ∧
     lookupId (txnDeleteF (txnCreateF ⟨[(0, 288230376151711744)],
        [(1, .income)], [], [], [], [], 2⟩ 0 1 .income
        144115188075855872).1 2).1.accounts 0 = some 288230376151711744 ∧
     (txnDeleteF (txnCreateF ⟨[(0, 288230376151711744)], [(1, .income)],
        [], [], [], [], 2⟩ 0 1 .income 144115188075855872).1
        2).1.transactions = []) :=
  ⟨by decide, by decide, by decide, by decide,
    c4_txn_roundtripF ⟨[(0, 288230376151711744)], [(1, .income)], [], [],
      [], [], 2⟩ 0 1 .income 144115188075855872 288230376151711744
      (by decide) (by decide) (by decide) (by decide) (by decide)
      (by decide) (by decide) (by decide)⟩

/-- C5: a pay request on a Borrowing is rejected when the Borrowing is
already completed, rejected when the payment would push `paidAmount` past
`totalAmount`, and rejected for type `borrow` when the account balance is
below the amount; otherwise it subtracts the amount from the balance for
`borrow` (adds it for `lend`), raises `paidAmount` by the amount, and
appends exactly one BorrowingTransaction record. -/
theorem c5_borrowPay_semantics (s : St) (bid ac : Nat) (amt : Int)
    (b : Borrowing) (bal : Int)
    (hv : validAmount amt = true)
    (hb : lookupId s.borrowings bid = some b)
    (ha : lookupId s.accounts ac = some bal)
    (hbal : 0 ≤ bal) :
    (b.status = .completed →
      borrowPay s bid amt ac = (s, .err .invalidState)) ∧
    (b.status ≠ .completed → b.type = .borrow → bal < amt →
      borrowPay s bid amt ac = (s, .err .insufficientBalance)) ∧
    (b.status ≠ .completed → ¬(b.type = .borrow ∧ bal < amt) →
      b.paidAmount + amt > b.totalAmount →
      borrowPay s bid amt ac = (s, .err .invalidState)) ∧
    (b.status ≠ .completed → ¬(b.type = .borrow ∧ bal < amt) →
      b.paidAmount + amt ≤ b.totalAmount →
      (borrowPay s bid amt ac).2 = .ok ∧
      lookupId (borrowPay s bid amt ac).1.accounts ac =
        some (bal + (match b.type with | .borrow => -amt | .lend => amt)) ∧
      (lookupId (borrowPay s bid amt ac).1.borrowings bid).map
        Borrowing.paidAmount = some (b.paidAmount + amt) ∧
      (borrowPay s bid amt ac).1.btxns = s.btxns ++
        [(s.nextId, ⟨bid, ac, amt,
          match b.type with | .borrow => .payment | .lend => .ret⟩)]) := by
  have h1 : 1 ≤ amt := validAmount_le hv
  refine ⟨?_, ?_, ?_, ?_⟩
  · intro hcomp
    unfold borrowPay
    rw [hb]
    simp [hv, hcomp]
  · intro hnc hty hlt
    unfold borrowPay
    rw [hb, ha]
    simp [hv, hnc, hty, hlt]
  · intro hnc hguard hover
    have hnover : ¬ (b.paidAmount + amt ≤ b.totalAmount) := by omega
    unfold borrowPay
    rw [hb, ha]
    simp [hv, hnc, hguard, hnover]
  · intro hnc hguard hle
    have hnover : ¬ (b.paidAmount + amt > b.totalAmount) := by omega
    have hnb : ¬ (bal +
        (match b.type with | .borrow => -amt | .lend => amt) < 0) := by
      cases hbty : b.type with
      | borrow =>
        have hge : ¬ bal < amt := fun hlt => hguard ⟨hbty, hlt⟩
        simp only
        omega
      | lend =>
        simp only
        omega
    have hcr : borrowPay s bid amt ac =
        ({ s with
            accounts := setId s.accounts ac (bal +
              (match b.type with | .borrow => -amt | .lend => amt)),
            borrowings := setId s.borrowings bid
              (borrowingSaveHook { b with
                paidAmount := b.paidAmount + amt,
                remainingAmount := b.totalAmount - (b.paidAmount + amt) }),
            btxns := s.btxns ++ [(s.nextId, ⟨bid, ac, amt,
              match b.type with | .borrow => .payment | .lend => .ret⟩)],
            nextId := s.nextId + 1 }, .ok) := by
      unfold borrowPay
      rw [hb, ha]
      simp [hv, hnc, hguard, hnover, hnb]
    rw [hcr]
    refine ⟨rfl, lookupId_setId_self _ ha, ?_, rfl⟩
    rw [lookupId_setId_self _ hb]
    simp [borrowingSaveHook_paidAmount]

theorem c5_borrowPay_semantics_witness :
    validAmount 30 = true ∧
    lookupId (⟨[(0, 200)], [], [], [],
      [(1, ⟨.lend, 50, 0, 50, .active, some 0⟩)], [], 2⟩ : St).borrowings 1 =
      some ⟨.lend, 50, 0, 50, .active, some 0⟩ ∧
    ((Borrowing.status ⟨.lend, 50, 0, 50, .active, some 0⟩ ≠ .completed →
      ¬(Borrowing.type ⟨.lend, 50, 0, 50, .active, some 0⟩ = .borrow ∧
        (200 : Int) < 30) →
      Borrowing.paidAmount ⟨.lend, 50, 0, 50, .active, some 0⟩ + 30 ≤
        Borrowing.totalAmount ⟨.lend, 50, 0, 50, .active, some 0⟩ →
      (borrowPay ⟨[(0, 200)], [], [], [],
        [(1, ⟨.lend, 50, 0, 50, .active, some 0⟩)], [], 2⟩ 1 30 0).2 = .ok ∧
      lookupId (borrowPay ⟨[(0, 200)], [], [], [],
        [(1, ⟨.lend, 50, 0, 50, .active, some 0⟩)], [], 2⟩ 1 30 0).1.accounts
        0 = some (200 +
          (match Borrowing.type ⟨.lend, 50, 0, 50, .active, some 0⟩ with
            | .borrow => -(30 : Int) | .lend => 30)) ∧
      (lookupId (borrowPay ⟨[(0, 200)], [], [], [],
        [(1, ⟨.lend, 50, 0, 50, .active, some 0⟩)], [], 2⟩ 1 30 0).1.borrowings
        1).map Borrowing.paidAmount =
        some (Borrowing.paidAmount ⟨.lend, 50, 0, 50, .active, some 0⟩ + 30) ∧
      (borrowPay ⟨[(0, 200)], [], [], [],
        [(1, ⟨.lend, 50, 0, 50, .active, some 0⟩)], [], 2⟩ 1 30 0).1.btxns =
        [] ++ [(2, ⟨1, 0, 30,
          match Borrowing.type ⟨.lend, 50, 0, 50, .active, some 0⟩ with
            | .borrow => .payment | .lend => .ret⟩)])) :=
  ⟨by decide, by decide,
    (c5_borrowPay_semantics ⟨[(0, 200)], [], [], [],
      [(1, ⟨.lend, 50, 0, 50, .active, some 0⟩)], [], 2⟩ 1 0 30
      ⟨.lend, 50, 0, 50, .active, some 0⟩ 200 (by decide) (by decide)
      (by decide) (by decide)).2.2.2⟩

/-- C6: deleting a Borrowing that recorded an `initialAccountId` applies
exactly the inverse of the creation delta to that account (−totalAmount
for `borrow`, +totalAmount for `lend`), independent of `paidAmount` — the
payments made since creation are not separately reversed — and removes the
Borrowing together with all of its BorrowingTransaction records. -/
theorem c6_borrowDelete_reversal (s : St) (bid aid : Nat) (b : Borrowing)
    (bal : Int)
    (hb : lookupId s.borrowings bid = some b)
    (hinit : b.initialAccountId = some aid)
    (ha : lookupId s.accounts aid = some bal)
    (hok : (borrowDelete s bid).2 = .ok) :
    lookupId (borrowDelete s bid).1.accounts aid =
      some (bal + (match b.type with
        | .borrow => -b.totalAmount | .lend => b.totalAmount)) ∧
    (∀ p ∈ (borrowDelete s bid).1.btxns, p.2.borrowingId ≠ bid) ∧
    lookupId (borrowDelete s bid).1.borrowings bid = none := by
  unfold borrowDelete at hok ⊢
  rw [hb] at hok ⊢
  dsimp only at hok ⊢
  rw [hinit] at hok ⊢
  dsimp only at hok ⊢
  rw [ha] at hok ⊢
  dsimp only at hok ⊢
  by_cases hneg : bal + (match b.type with
      | .borrow => -b.totalAmount | .lend => b.totalAmount) < 0
  · rw [if_pos hneg] at hok
    cases hok
  · rw [if_neg hneg] at hok ⊢
    refine ⟨lookupId_setId_self _ ha, ?_, lookupId_removeId_self _ _⟩
    intro p hp
    have hmem := List.of_mem_filter hp
    simpa using hmem

theorem c6_borrowDelete_reversal_witness :
    lookupId (⟨[(0, 50)], [], [], [],
      [(1, ⟨.borrow, 40, 15, 25, .active, some 0⟩)],
      [(2, ⟨1, 0, 15, .payment⟩)], 3⟩ : St).borrowings 1 =
      some ⟨.borrow, 40, 15, 25, .active, some 0⟩ ∧
    (borrowDelete ⟨[(0, 50)], [], [], [],
      [(1, ⟨.borrow, 40, 15, 25, .active, some 0⟩)],
      [(2, ⟨1, 0, 15, .payment⟩)], 3⟩ 1).2 = .ok ∧
    (lookupId (borrowDelete ⟨[(0, 50)], [], [], [],
      [(1, ⟨.borrow, 40, 15, 25, .active, some 0⟩)],
      [(2, ⟨1, 0, 15, .payment⟩)], 3⟩ 1).1.accounts 0 =
      some (50 + (match Borrowing.type ⟨.borrow, 40, 15, 25, .active, some 0⟩
        with | .borrow => -(40 : Int) | .lend => 40)) ∧
     (∀ p ∈ (borrowDelete ⟨[(0, 50)], [], [], [],
      [(1, ⟨.borrow, 40, 15, 25, .active, some 0⟩)],
      [(2, ⟨1, 0, 15, .payment⟩)], 3⟩ 1).1.btxns, p.2.borrowingId ≠ 1) ∧
     lookupId (borrowDelete ⟨[(0, 50)], [], [], [],
      [(1, ⟨.borrow, 40, 15, 25, .active, some 0⟩)],
      [(2, ⟨1, 0, 15, .payment⟩)], 3⟩ 1).1.borrowings 1 = none) :=
  ⟨by decide, by decide,
    c6_borrowDelete_reversal ⟨[(0, 50)], [], [], [],
      [(1, ⟨.borrow, 40, 15, 25, .active, some 0⟩)],
      [(2, ⟨1, 0, 15, .payment⟩)], 3⟩ 1 0
      ⟨.borrow, 40, 15, 25, .active, some 0⟩ 50 (by decide) (by decide)
      (by decide) (by decide)⟩

/-- C7: a successful mark-paid call on an Allocation holding at most one
entry for the month (as every Allocation created through the routes does)
leaves exactly one MonthlyPayment entry for that month — an existing entry
is overwritten in place at its original index, a new month is appended —
and still applies the account balance delta and creates one synthetic
Transaction on every call, also when the month was already paid. -/
theorem c7_markPaid_upsert (s : St) (al ac : Nat) (m : String)
    (alloc : Allocation) (bal : Int)
    (hm : monthOk m = true)
    (hal : lookupId s.allocations al = some alloc)
    (hac : lookupId s.accounts ac = some bal)
    (hbal : 0 ≤ bal)
    (hamt : 1 ≤ alloc.amount)
    (hcount : countMonth alloc.monthlyPayments m ≤ 1)
    (hguard : ¬(alloc.type ≠ .income ∧ bal < alloc.amount)) :
    (markPaid s al ac m).2 = .ok ∧
    (lookupId (markPaid s al ac m).1.allocations al).map
      (fun a2 => countMonth a2.monthlyPayments m) = some 1 ∧
    (lookupId (markPaid s al ac m).1.allocations al).map
      Allocation.monthlyPayments =
      some (match findMonthIdx alloc.monthlyPayments m with
        | some i => alloc.monthlyPayments.set i ⟨m, ac, true⟩
        | none => alloc.monthlyPayments ++ [⟨m, ac, true⟩]) ∧
    lookupId (markPaid s al ac m).1.accounts ac =
      some (bal + (if alloc.type = .income then alloc.amount
        else -alloc.amount)) ∧
    (markPaid s al ac m).1.transactions.length =
      s.transactions.length + 1 := by
  have hnb : ¬ (bal + (if alloc.type = .income then alloc.amount
      else -alloc.amount) < 0) := by
    by_cases hty : alloc.type = .income
    · rw [if_pos hty]
      omega
    · rw [if_neg hty]
      have hge : ¬ bal < alloc.amount := fun hlt => hguard ⟨hty, hlt⟩
      omega
  have hcount1 : countMonth (match findMonthIdx alloc.monthlyPayments m with
      | some i => alloc.monthlyPayments.set i (⟨m, ac, true⟩ : MonthlyPayment)
      | none => alloc.monthlyPayments ++ [⟨m, ac, true⟩]) m = 1 := by
    cases hfi : findMonthIdx alloc.monthlyPayments m with
    | some i =>
      rw [countMonth_set _ _ _ _ hfi rfl]
      have hpos := findMonthIdx_some_count_pos _ _ _ hfi
      omega
    | none =>
      rw [countMonth_append_one _ _ _ rfl,
        (findMonthIdx_none_iff _ _).mp hfi]
  unfold markPaid
  rw [hal, hac]
  rw [if_neg (by simp [hm])]
  dsimp only
  rw [if_neg hguard]
  rw [if_neg hnb]
  cases hfind : s.categories.find? (fun p =>
      p.2 == (if alloc.type = .income then TxnType.income
        else TxnType.expense)) with
  | some q =>
    dsimp only
    refine ⟨rfl, ?_, ?_, lookupId_setId_self _ hac, by simp⟩
    · rw [lookupId_setId_self _ hal]
      simp only [Option.map_some']
      exact congrArg some hcount1
    · rw [lookupId_setId_self _ hal]
      rfl
  | none =>
    dsimp only
    refine ⟨rfl, ?_, ?_, lookupId_setId_self _ hac, by simp⟩
    · rw [lookupId_setId_self _ hal]
      simp only [Option.map_some']
      exact congrArg some hcount1
    · rw [lookupId_setId_self _ hal]
      rfl

theorem c7_markPaid_upsert_witness :
    monthOk "2025-01" = true ∧
    lookupId (⟨[(0, 100)], [(9, .expense)], [], [(1, ⟨20, .expense, true,
      [⟨"2025-01", 0, true⟩]⟩)], [], [], 10⟩ : St).allocations 1 =
      some ⟨20, .expense, true, [⟨"2025-01", 0, true⟩]⟩ ∧
    countMonth (Allocation.monthlyPayments
      ⟨20, .expense, true, [⟨"2025-01", 0, true⟩]⟩) "2025-01" ≤ 1 ∧
    ((markPaid ⟨[(0, 100)], [(9, .expense)], [], [(1, ⟨20, .expense, true,
      [⟨"2025-01", 0, true⟩]⟩)], [], [], 10⟩ 1 0 "2025-01").2 = .ok ∧
    (lookupId (markPaid ⟨[(0, 100)], [(9, .expense)], [], [(1, ⟨20, .expense,
      true, [⟨"2025-01", 0, true⟩]⟩)], [], [], 10⟩ 1 0
      "2025-01").1.allocations 1).map
      (fun a2 => countMonth a2.monthlyPayments "2025-01") = some 1 ∧
    (lookupId (markPaid ⟨[(0, 100)], [(9, .expense)], [], [(1, ⟨20, .expense,
      true, [⟨"2025-01", 0, true⟩]⟩)], [], [], 10⟩ 1 0
      "2025-01").1.allocations 1).map Allocation.monthlyPayments =
      some (match findMonthIdx (Allocation.monthlyPayments
          ⟨20, .expense, true, [⟨"2025-01", 0, true⟩]⟩) "2025-01" with
        | some i => (Allocation.monthlyPayments
            ⟨20, .expense, true, [⟨"2025-01", 0, true⟩]⟩).set i
            ⟨"2025-01", 0, true⟩
        | none => Allocation.monthlyPayments
            ⟨20, .expense, true, [⟨"2025-01", 0, true⟩]⟩ ++
            [⟨"2025-01", 0, true⟩]) ∧
    lookupId (markPaid ⟨[(0, 100)], [(9, .expense)], [], [(1, ⟨20, .expense,
      true, [⟨"2025-01", 0, true⟩]⟩)], [], [], 10⟩ 1 0
      "2025-01").1.accounts 0 =
      some (100 + (if Allocation.type ⟨20, .expense, true,
        [⟨"2025-01", 0, true⟩]⟩ = .income
        then Allocation.amount ⟨20, .expense, true, [⟨"2025-01", 0, true⟩]⟩
        else -Allocation.amount
          ⟨20, .expense, true, [⟨"2025-01", 0, true⟩]⟩)) ∧
    (markPaid ⟨[(0, 100)], [(9, .expense)], [], [(1, ⟨20, .expense, true,
      [⟨"2025-01", 0, true⟩]⟩)], [], [], 10⟩ 1 0
      "2025-01").1.transactions.length =
      List.length (α := Nat × Txn) [] + 1) :=
  ⟨by decide, by decide, by decide,
    c7_markPaid_upsert ⟨[(0, 100)], [(9, .expense)], [], [(1, ⟨20, .expense,
      true, [⟨"2025-01", 0, true⟩]⟩)], [], [], 10⟩ 1 0 "2025-01"
      ⟨20, .expense, true, [⟨"2025-01", 0, true⟩]⟩ 100 (by decide)
      (by decide) (by decide) (by decide) (by decide) (by decide)
      (by decide)⟩
